import Mathlib

/-!
Verification of the Empirical-Galaxy-Model repository core numerical
routines against its specification.

The Python source is embedded shallowly over the rationals:

* floating-point values that may be non-finite (the uncertainty pipeline of
  `model/calibration/leastsq_fitting.py`) are modelled by the type `EF`
  (a rational, `+inf`, `-inf`, or `nan`) with IEEE-style arithmetic;
* transcendental primitives that have no rational counterpart
  (`10**x`, `np.log10`, real powers `x**alpha`, `scipy.special.hyp2f1`)
  are passed in as explicit function parameters at the points where the
  source calls them, so every statement quantifies over them or fixes a
  concrete executable stand-in;
* the numerical inverter `pynverse.inversefunc` (an external library) is a
  function parameter; theorems that need it assume only its documented
  contract, namely that the value it returns is mapped back to the target
  by the function being inverted;
* Python exceptions (IndexError from over-long parameter vectors,
  ValueError from out-of-domain interpolation or empty reductions,
  NameError from unknown configuration strings, AttributeError) are
  modelled with Option/Except.
-/

/-- Extended floating-point value: a finite rational, one of the two
infinities, or NaN.  Models the numpy float values that flow through the
uncertainty/weight computations, where non-finite values carry meaning. -/
inductive EF where
  | fin (q : ℚ)
  | pinf
  | ninf
  | nan
deriving DecidableEq

/-- Finiteness test, as np.isfinite: true exactly on finite values. -/
def EF.isFinite : EF → Bool
  | .fin _ => true
  | _ => false

/-- IEEE-style negation on extended floats. -/
def EF.neg : EF → EF
  | .fin a => .fin (-a)
  | .pinf => .ninf
  | .ninf => .pinf
  | .nan => .nan

/-- IEEE-style addition on extended floats (inf + -inf = NaN, NaN absorbs). -/
def EF.add : EF → EF → EF
  | .fin a, .fin b => .fin (a + b)
  | .fin _, .pinf => .pinf
  | .fin _, .ninf => .ninf
  | .pinf, .fin _ => .pinf
  | .ninf, .fin _ => .ninf
  | .pinf, .pinf => .pinf
  | .ninf, .ninf => .ninf
  | .pinf, .ninf => .nan
  | .ninf, .pinf => .nan
  | _, _ => .nan

/-- IEEE-style subtraction, as addition of the negation. -/
def EF.sub (a b : EF) : EF := a.add b.neg

/-- IEEE-style multiplication (0 * inf = NaN, NaN absorbs, signs as usual). -/
def EF.mul : EF → EF → EF
  | .fin a, .fin b => .fin (a * b)
  | .fin a, .pinf => if 0 < a then .pinf else if a < 0 then .ninf else .nan
  | .fin a, .ninf => if 0 < a then .ninf else if a < 0 then .pinf else .nan
  | .pinf, .fin b => if 0 < b then .pinf else if b < 0 then .ninf else .nan
  | .ninf, .fin b => if 0 < b then .ninf else if b < 0 then .pinf else .nan
  | .pinf, .pinf => .pinf
  | .pinf, .ninf => .ninf
  | .ninf, .pinf => .ninf
  | .ninf, .ninf => .pinf
  | _, _ => .nan

/-- IEEE-style division under numpy array semantics: x/0 gives a signed
infinity (0/0 gives NaN), finite/inf gives 0, inf/inf gives NaN. -/
def EF.div : EF → EF → EF
  | .fin a, .fin b =>
      if b = 0 then (if a = 0 then .nan else if 0 < a then .pinf else .ninf)
      else .fin (a / b)
  | .fin _, .pinf => .fin 0
  | .fin _, .ninf => .fin 0
  | .pinf, .fin b => if b < 0 then .ninf else .pinf
  | .ninf, .fin b => if b < 0 then .pinf else .ninf
  | _, _ => .nan

/-- Pairwise maximum ignoring NaN, as np.fmax: NaN loses against any
non-NaN value; on two NaNs the result is NaN. -/
def EF.fmax : EF → EF → EF
  | .nan, b => b
  | a, .nan => a
  | .pinf, _ => .pinf
  | _, .pinf => .pinf
  | .fin a, .fin b => .fin (max a b)
  | .fin a, .ninf => .fin a
  | .ninf, .fin b => .fin b
  | .ninf, .ninf => .ninf

/-- Reduction of np.nanmax over a list: none on an empty list (numpy raises
ValueError there), otherwise the fmax-fold, which ignores NaN entries and
returns NaN only when every entry is NaN. -/
def nanmaxE : List EF → Option EF
  | [] => Option.none
  | x :: xs => some (xs.foldl EF.fmax x)

/-- Sum of a list of extended floats, as np.sum (fold from 0). -/
def efSum (l : List EF) : EF := l.foldl EF.add (.fin 0)

/-- Lift of the transcendental `10**x` to extended floats, given its finite
part `tenpow` as a parameter: 10**(+inf) = +inf, 10**(-inf) = 0,
10**NaN = NaN (numpy semantics). -/
def tenpowE (tenpow : ℚ → ℚ) : EF → EF
  | .fin q => .fin (tenpow q)
  | .pinf => .pinf
  | .ninf => .fin 0
  | .nan => .nan

/-- Embeds within_bounds of `SMF Analysis/leastsq_fitting.py` (also the
model of the identically-named helper the calibration module imports from
the absent model/helper module): walks the indices of `values`, requiring
each value to lie strictly between the bound entries at the same index;
`none` models the IndexError Python raises when a bounds list is shorter
than `values`.  Trailing bound entries are ignored, and the conjunction of
an empty list of checks is true. -/
def within_bounds {α : Type} [LT α] [DecidableRel (fun a b : α => a < b)]
    (values lower_bounds upper_bounds : List α) : Option Bool := do
  let is_within ← (List.range values.length).mapM (fun i => do
    let v ← values.get? i
    let lo ← lower_bounds.get? i
    let hi ← upper_bounds.get? i
    pure (decide (lo < v) && decide (v < hi)))
  pure (is_within.all id)

/-- Embeds scipy.interpolate.interp1d with its default linear kind and
bounds_error: piecewise-linear interpolation between the two bracketing
tabulated points, `none` (ValueError) outside the tabulated domain. -/
def interp1d : List (ℚ × ℚ) → ℚ → Option ℚ
  | [], _ => Option.none
  | [p], x => if x = p.1 then some p.2 else Option.none
  | p :: q :: rest, x =>
      if x < p.1 then Option.none
      else if x ≤ q.1 then some (p.2 + (x - p.1) * (q.2 - p.2) / (q.1 - p.1))
      else interp1d (q :: rest) x

/-- Embeds no_feedback.function of `SMF Analysis/smf_modelling.py`:
the stellar mass as a function of halo mass, m_* = A * m_h. -/
def no_feedback_function (A m_h : ℚ) : ℚ := A * m_h

/-- Embeds no_feedback.derivative: dm_*/dm_h = A. -/
def no_feedback_derivative (A m_h : ℚ) : ℚ := A

/-- Embeds supernova_feedback.function: m_* = A/(alpha+1) * (m_h/m_c)^alpha * m_h.
The real power x**alpha has no rational counterpart, so the function
`pw` standing for x ↦ x^alpha is a parameter. -/
def supernova_feedback_function (m_c A alpha : ℚ) (pw : ℚ → ℚ) (m_h : ℚ) : ℚ :=
  A / (alpha + 1) * pw (m_h / m_c) * m_h

/-- Embeds supernova_feedback.derivative: dm_*/dm_h = A * (m_h/m_c)^alpha,
with the real power abstracted as in supernova_feedback_function. -/
def supernova_feedback_derivative (A : ℚ) (pw : ℚ → ℚ) (m_h : ℚ) : ℚ :=
  A * pw m_h

/-- Embeds supernova_blackhole_feedvack.function (source spelling):
m_* = A/(alpha+1) * m_h * x^alpha * hyp2f1(1, f, f+1, -x^(alpha+beta)) with
x = m_h/m_c and f = (alpha+1)/(alpha+beta).  The real powers x^alpha and
x^(alpha+beta) are the parameters `pwa` and `pws`; the hypergeometric slice
z ↦ hyp2f1(1, f, f+1, z) is the parameter `hyp2f1s`. -/
def supernova_blackhole_feedvack_function (m_c A alpha : ℚ)
    (pwa pws hyp2f1s : ℚ → ℚ) (m_h : ℚ) : ℚ :=
  A / (alpha + 1) * m_h * pwa (m_h / m_c) * hyp2f1s (-(pws (m_h / m_c)))

/-- Embeds supernova_blackhole_feedvack.derivative:
dm_*/dm_h = A / ((m_h/m_c)^(-alpha) + (m_h/m_c)^beta), with the real powers
x^(-alpha) and x^beta abstracted as `pwna` and `pwb`. -/
def supernova_blackhole_feedvack_derivative (m_c A : ℚ)
    (pwna pwb : ℚ → ℚ) (m_h : ℚ) : ℚ :=
  A * 1 / (pwna (m_h / m_c) + pwb (m_h / m_c))

/-- Embeds stellar_to_halo_mass of `SMF Analysis/smf_modelling.py`: the
external numerical inverter pynverse.inversefunc is the parameter
`inversefunc`; the source builds the inverse of `func` with it and applies
that inverse to `m_star`. -/
def stellar_to_halo_mass (inversefunc : (ℚ → ℚ) → ℚ → ℚ)
    (func : ℚ → ℚ) (m_star : ℚ) : ℚ :=
  inversefunc func m_star

/-- Embeds smf_model_class.function of `SMF Analysis/smf_modelling.py`.
`hmf_function` is the interpolated HMF stored by the constructor (none
models its out-of-domain ValueError), `fb_function`/`fb_derivative` are the
feedback model methods with the candidate parameters already applied (the
lambdas of the source), and `inversefunc` is the external inverter.  The
source returns the sentinel 1e+10 when some parameter is negative or the
first parameter is zero (params[0] on an empty vector raises IndexError,
modelled by none); otherwise it inverts the feedback function at m_star and
returns hmf(m_star) * m_star/m_h * 1/derivative(m_h). -/
def smf_model_function (hmf_function : ℚ → Option ℚ)
    (fb_function fb_derivative : ℚ → ℚ) (inversefunc : (ℚ → ℚ) → ℚ → ℚ)
    (params : List ℚ) (m_star : ℚ) : Option ℚ :=
  if params.any (fun p => decide (p < 0)) then some (10 ^ 10)
  else
    match params.head? with
    | Option.none => Option.none
    | some p0 =>
      if p0 = 0 then some (10 ^ 10)
      else
        let m_h := stellar_to_halo_mass inversefunc fb_function m_star
        (hmf_function m_star).map (fun h => h * m_star / m_h * 1 / fb_derivative m_h)

/-- Modelled from the spec: the Abundance Model formula of section 4.3 as the
claim reads it, with the tabulated HMF density evaluated at the inverted
halo mass m_h rather than at the observable value:
predicted_density(m_obs) = HMF_density(m_h) * (m_obs/m_h) * (1/derivative(m_h)). -/
def spec_predicted_density (hmf_function : ℚ → Option ℚ)
    (fb_derivative : ℚ → ℚ) (m_h m_obs : ℚ) : Option ℚ :=
  (hmf_function m_h).map (fun h => h * m_obs / m_h * 1 / fb_derivative m_h)

/-- Output value of a numpy-backed cost function in the SMF-Analysis module:
either a scalar or a residual vector, over rationals. -/
inductive NpOut where
  | scalar (q : ℚ)
  | vec (v : List ℚ)
deriving DecidableEq

/-- Embeds cost_function of `SMF Analysis/leastsq_fitting.py`.  `log10` is
the transcendental np.log10 passed as a parameter, `model_fn` is
smf_model.function (vectorized over the observed masses by mapping; a model
exception, none, escapes the cost function, hence the outer Option).  The
source computes the model abundances FIRST, then checks the bounds
[0,0,0,0] < params < [1, inf, inf, 1] and returns the sentinel 1e+10 on
violation, and otherwise returns the vector of log-space residuals. -/
def smf_cost_function (log10 : ℚ → ℚ) (model_fn : List ℚ → ℚ → Option ℚ)
    (smf : List (List ℚ)) (params : List ℚ) : Option NpOut := do
  let m_obs := smf.map (fun r => r.getD 0 0)
  let phi_obs := smf.map (fun r => r.getD 1 0)
  let phi_mod ← m_obs.mapM (model_fn params)
  let inb ← within_bounds (params.map (fun p => (p : WithTop ℚ)))
      [0, 0, 0, 0] [1, ⊤, ⊤, 1]
  if inb = false then
    pure (NpOut.scalar (10 ^ 10))
  else
    pure (NpOut.vec (List.zipWith (fun po pm => log10 po - log10 pm) phi_obs phi_mod))

/-- Row of an NDF observation table as the calibration module reads it:
log-quantity, log-density, and the two (possibly non-finite) log-space
error bars of columns 2 and 3. -/
structure NDFRow where
  quantity : ℚ
  log_phi : ℚ
  lower : EF
  upper : EF
deriving DecidableEq

/-- Linear-space uncertainty of one observation row, as computed inside
calculate_weights of `model/calibration/leastsq_fitting.py`:
(10^(log_phi + upper) - 10^(log_phi - lower)) / 2, over extended floats. -/
def linear_uncertainty (tenpow : ℚ → ℚ) (r : NDFRow) : EF :=
  EF.div
    (EF.sub (tenpowE tenpow (EF.add (.fin r.log_phi) r.upper))
            (tenpowE tenpow (EF.sub (.fin r.log_phi) r.lower)))
    (.fin 2)

/-- Embeds calculate_weights of `model/calibration/leastsq_fitting.py`:
derive each row linear-space uncertainty, replace every non-finite entry
by np.nanmax(uncertainty) * 10 (the nanmax is taken over the original
array, before substitution; on an empty dataset the numpy reduction raises
ValueError, modelled as the error case), divide by the linear observed
value if `relative`, and return the reciprocals as weights. -/
def calculate_weights (log_ndf : List NDFRow) (tenpow : ℚ → ℚ)
    (relative : Bool) : Except String (List EF) :=
  let uncertainty := log_ndf.map (linear_uncertainty tenpow)
  match nanmaxE uncertainty with
  | Option.none => Except.error "ValueError: zero-size array to reduction operation"
  | some mx =>
    let substituted := uncertainty.map
      (fun u => if u.isFinite then u else EF.mul mx (.fin 10))
    let adjusted :=
      if relative then
        List.zipWith (fun u r => EF.div u (.fin (tenpow r.log_phi))) substituted log_ndf
      else substituted
    Except.ok (adjusted.map (fun u => EF.div (.fin 1) u))

/-- Output value of the calibration module cost function: a scalar or a
residual vector over extended floats. -/
inductive CalOut where
  | scalar (x : EF)
  | vec (v : List EF)
deriving DecidableEq

/-- Stage reached by cost_function of `model/calibration/leastsq_fitting.py`
before its output-mode dispatch: either one of the two sentinel early
returns fired, or the weighted residual vector was computed. -/
inductive CostStage where
  | sentinel
  | residuals (v : List EF)
deriving DecidableEq

/-- Embeds lines 76-111 of cost_function of
`model/calibration/leastsq_fitting.py`, everything before the output-mode
dispatch.  The observation rows, the bounds produced by update_bounds, the
calculate_log_abundance method of the model and the per-quantity configuration
(fitting_space, relative_weights) are parameters, as is the transcendental
10**x.  Order as in the source: bound check (sentinel 1e+30 on violation,
IndexError if the bound lists are shorter than params), model evaluation
and finiteness check (sentinel 1e+30), residuals in log or linear space
(NameError on an unknown fitting space), then optional weighting. -/
def cost_eval (log_ndf : List NDFRow) (lower upper : List (WithTop ℚ))
    (calc_log_abundance : List ℚ → List ℚ → List EF)
    (fitting_space : String) (relative_weights : Bool) (tenpow : ℚ → ℚ)
    (params : List ℚ) (weighted : Bool) : Except String CostStage :=
  let log_quantity_obs := log_ndf.map (fun r => r.quantity)
  let log_phi_obs := log_ndf.map (fun r => r.log_phi)
  match within_bounds (params.map (fun p => (p : WithTop ℚ))) lower upper with
  | Option.none => Except.error "IndexError"
  | some false => Except.ok CostStage.sentinel
  | some true =>
    let log_phi_mod := calc_log_abundance log_quantity_obs params
    if !(log_phi_mod.all EF.isFinite) then Except.ok CostStage.sentinel
    else do
      let res : List EF ←
        if fitting_space = "log" then
          pure (List.zipWith (fun a b => EF.sub (.fin a) b) log_phi_obs log_phi_mod)
        else if fitting_space = "linear" then
          pure (List.zipWith
            (fun a b => EF.sub (tenpowE tenpow (.fin a)) (tenpowE tenpow b))
            log_phi_obs log_phi_mod)
        else Except.error "NameError: Fitting space not known."
      let weighted_res : List EF ←
        if weighted then do
          let weights ← calculate_weights log_ndf tenpow relative_weights
          pure (List.zipWith EF.mul res weights)
        else pure (res.map (fun r => EF.mul r (.fin 1)))
      pure (CostStage.residuals weighted_res)

/-- Embeds cost_function of `model/calibration/leastsq_fitting.py`.  The two
sentinel early returns yield the scalar 1e+30 before the output mode is
even consulted; otherwise mode res returns the weighted residual vector,
mode cost returns the sum of its squares, and any other mode raises NameError. -/
def cost_function (log_ndf : List NDFRow) (lower upper : List (WithTop ℚ))
    (calc_log_abundance : List ℚ → List ℚ → List EF)
    (fitting_space : String) (relative_weights : Bool) (tenpow : ℚ → ℚ)
    (params : List ℚ) (out : String) (weighted : Bool) : Except String CalOut := do
  match ← cost_eval log_ndf lower upper calc_log_abundance fitting_space
      relative_weights tenpow params weighted with
  | CostStage.sentinel => pure (CalOut.scalar (.fin (10 ^ 30)))
  | CostStage.residuals weighted_res =>
    if out = "res" then pure (CalOut.vec weighted_res)
    else
      let cost := efSum (weighted_res.map (fun r => EF.mul r r))
      if out = "cost" then pure (CalOut.scalar cost)
      else Except.error "NameError: out not known."

/-- The state smf_model_class of `SMF Analysis/smf_modelling.py` stores at
construction: the interpolated HMF and the data identifying the feedback
model (its name and critical mass). -/
structure SMFModel where
  hmf_function : ℚ → Option ℚ
  feedback_name : String
  m_crit : ℚ

/-- Embeds the constructor of smf_model_class: interpolate the tabulated
HMF (columns 0 and 1) and record the chosen feedback model. -/
def smf_model_class (hmf : List (List ℚ)) (feedback_name : String)
    (m_crit : ℚ) : SMFModel :=
  { hmf_function := interp1d (hmf.map (fun r => (r.getD 0 0, r.getD 1 0)))
    feedback_name := feedback_name
    m_crit := m_crit }

/-- Embeds the data filtering of one slice inside fit_SMF_model of
`SMF Analysis/smf_modelling.py` (lines 45 and 50-51): the observed SMF is
cut to densities above 1e-6, and for the sn feedback model the rows at or
above the critical mass are additionally dropped. -/
def surviving_rows (smf0 : List (List ℚ)) (feedback_name : String)
    (m_crit : ℚ) : List (List ℚ) :=
  let smf1 := smf0.filter (fun r => decide (r.getD 1 0 > 1 / 1000000))
  if feedback_name = "sn" then
    smf1.filter (fun r => decide (r.getD 0 0 < m_crit))
  else smf1

/-- Embeds the per-redshift loop of fit_SMF_model of
`SMF Analysis/smf_modelling.py`.  The chosen fitting routine is the
parameter `fit` (taking the filtered SMF, the HMF table, the constructed
model and the redshift, returning (params, modelled_smf, cost)).  For slice
i the observed rows are filtered by surviving_rows, the HMF at index i+1 is
used (none models the IndexError when hmfs is too short), the model is
constructed, and the three result components of each call are collected
into parallel lists. -/
def fit_SMF_model
    (fit : List (List ℚ) → List (List ℚ) → SMFModel → ℕ →
      List ℚ × List (List ℚ) × ℚ)
    (smfs hmfs : List (List (List ℚ))) (feedback_name : String)
    (m_crit : ℚ) :
    Option (List (List ℚ) × List (List (List ℚ)) × List ℚ) := do
  let results ← (List.range smfs.length).mapM (fun i => do
    let smf0 ← smfs.get? i
    let hmf ← hmfs.get? (i + 1)
    let smf2 := surviving_rows smf0 feedback_name m_crit
    let smf_model := smf_model_class hmf feedback_name m_crit
    pure (fit smf2 hmf smf_model (i + 1)))
  pure (results.map (fun t => t.1), results.map (fun t => t.2.1),
    results.map (fun t => t.2.2))

/-- Result record of the scipy optimizers least_squares, minimize and
dual_annealing as lsq_fit reads it: the best point `x` and the convergence
flag `success`. -/
structure OptimizeResult where
  x : List ℚ
  success : Bool
deriving DecidableEq

/-- Value bound to optimization_res in lsq_fit of
`model/calibration/leastsq_fitting.py`: three of the scipy backends return
a result record, while scipy.optimize.brute (full_output left at its
default) returns a bare parameter array. -/
inductive ScipyRet where
  | res (r : OptimizeResult)
  | arr (x0 : List ℚ)
deriving DecidableEq

/-- Attribute access optimization_res.x: an AttributeError for the bare
array scipy.optimize.brute returns. -/
def scipy_attr_x : ScipyRet → Except String (List ℚ)
  | .res r => Except.ok r.x
  | .arr _ => Except.error "AttributeError: ndarray object has no attribute x"

/-- Attribute access optimization_res.success, failing as scipy_attr_x. -/
def scipy_attr_success : ScipyRet → Except String Bool
  | .res r => Except.ok r.success
  | .arr _ => Except.error "AttributeError: ndarray object has no attribute success"

/-- Embeds lsq_fit of `model/calibration/leastsq_fitting.py`.  The four
scipy backends are external; their return values for this call are the
parameters `least_squares_res`, `minimize_res`, `annealing_res` (result
records) and `brute_res` (a bare array).  An unknown method raises
NameError.  The source then reads optimization_res.x, prints a warning if
optimization_res.success is false (the warning is returned alongside the
result here), and returns (par, None) with the None distribution kept for
compatibility with the mcmc fit. -/
def lsq_fit (least_squares_res minimize_res annealing_res : OptimizeResult)
    (brute_res : List ℚ) (method : String) :
    Except String ((List ℚ × Option Unit) × List String) := do
  let optimization_res : ScipyRet ←
    if method = "least_squares" then pure (ScipyRet.res least_squares_res)
    else if method = "minimize" then pure (ScipyRet.res minimize_res)
    else if method = "annealing" then pure (ScipyRet.res annealing_res)
    else if method = "brute" then pure (ScipyRet.arr brute_res)
    else Except.error "NameError: method not known."
  let par ← scipy_attr_x optimization_res
  let succ ← scipy_attr_success optimization_res
  let warnings :=
    if succ then ([] : List String)
    else ["Warning: Optimization did not succeed"]
  pure ((par, (Option.none : Option Unit)), warnings)

/-- Claim C1 (corrected): for feasible parameters (none negative, first one
nonzero) the predicted density of the Abundance Model is
HMF_density(m_obs) * (m_obs/m_h) * (1/derivative(m_h)) with m_h the
inverted halo mass: the tabulated HMF density is evaluated at the
observable value m_obs, not at the inverted halo mass m_h. -/
theorem c1_abundance_model_formula (hmf_function : ℚ → Option ℚ)
    (fb_function fb_derivative : ℚ → ℚ) (ifc : (ℚ → ℚ) → ℚ → ℚ)
    (params : List ℚ) (p0 m_star hval : ℚ)
    (hneg : params.any (fun p => decide (p < 0)) = false)
    (hhead : params.head? = some p0) (hp0 : ¬ p0 = 0)
    (hhmf : hmf_function m_star = some hval) :
    smf_model_function hmf_function fb_function fb_derivative ifc params m_star
      = some (hval * m_star / stellar_to_halo_mass ifc fb_function m_star * 1
          / fb_derivative (stellar_to_halo_mass ifc fb_function m_star)) := by
  simp [smf_model_function, hneg, hhead, hp0, hhmf]

/-- Witness for c1_abundance_model_formula at the concrete feasible input
of the counterexample instance. -/
theorem c1_abundance_model_formula_witness :
    smf_model_function (interp1d [(1, 5), (3, 11)]) (no_feedback_function (1/2))
      (no_feedback_derivative (1/2)) (fun _ y => 2 * y) [1/2] 1
      = some (5 * 1 / stellar_to_halo_mass (fun _ y => 2 * y) (no_feedback_function (1/2)) 1 * 1
          / no_feedback_derivative (1/2)
              (stellar_to_halo_mass (fun _ y => 2 * y) (no_feedback_function (1/2)) 1)) :=
  c1_abundance_model_formula (interp1d [(1, 5), (3, 11)]) (no_feedback_function (1/2))
    (no_feedback_derivative (1/2)) (fun _ y => 2 * y) [1/2] (1/2) 1 5
    (by norm_num) (by norm_num) (by norm_num) (by norm_num [interp1d])

/-- Counterexample to claim C1 as stated: a concrete two-point HMF table,
the no-feedback model with A = 1/2 and observable value 1.  The inverter
satisfies its contract (forward(m_h) = m_obs, first conjunct), the code
returns density 5 (the HMF interpolated at the observable value 1), while
the formula of the spec with the HMF at the inverted halo mass m_h = 2 gives 8. -/
theorem c1_counterexample :
    no_feedback_function (1/2)
      (stellar_to_halo_mass (fun _ y => 2 * y) (no_feedback_function (1/2)) 1) = 1
  ∧ smf_model_function (interp1d [(1, 5), (3, 11)]) (no_feedback_function (1/2))
      (no_feedback_derivative (1/2)) (fun _ y => 2 * y) [1/2] 1 = some 5
  ∧ spec_predicted_density (interp1d [(1, 5), (3, 11)]) (no_feedback_derivative (1/2))
      (stellar_to_halo_mass (fun _ y => 2 * y) (no_feedback_function (1/2)) 1) 1 = some 8
  ∧ smf_model_function (interp1d [(1, 5), (3, 11)]) (no_feedback_function (1/2))
      (no_feedback_derivative (1/2)) (fun _ y => 2 * y) [1/2] 1
      ≠ spec_predicted_density (interp1d [(1, 5), (3, 11)]) (no_feedback_derivative (1/2))
          (stellar_to_halo_mass (fun _ y => 2 * y) (no_feedback_function (1/2)) 1) 1 := by
  refine ⟨by norm_num [no_feedback_function, stellar_to_halo_mass], ?h1, ?h2, ?h3⟩
  case h1 =>
    norm_num [smf_model_function, stellar_to_halo_mass, interp1d, no_feedback_derivative]
  case h2 =>
    norm_num [spec_predicted_density, stellar_to_halo_mass, interp1d,
      no_feedback_function, no_feedback_derivative]
  case h3 =>
    norm_num [smf_model_function, spec_predicted_density, stellar_to_halo_mass,
      interp1d, no_feedback_function, no_feedback_derivative]

/-- Claim C6 (corrected): the Abundance Model evaluation returns the
sentinel 1e+10 immediately — independent of the HMF, the feedback functions
and the inverter, so without attempting the numerical inversion — exactly
when some parameter is strictly negative or the first parameter is zero
(not whenever some component is merely non-positive). -/
theorem c6_sentinel_condition (hmf_function : ℚ → Option ℚ)
    (fb_function fb_derivative : ℚ → ℚ) (ifc : (ℚ → ℚ) → ℚ → ℚ)
    (params : List ℚ) (m_star : ℚ)
    (h : params.any (fun p => decide (p < 0)) = true ∨ params.head? = some 0) :
    smf_model_function hmf_function fb_function fb_derivative ifc params m_star
      = some (10 ^ 10) := by
  rcases h with h | h
  · simp [smf_model_function, h]
  · by_cases ha : params.any (fun p => decide (p < 0)) = true
    · simp [smf_model_function, ha]
    · simp [smf_model_function, ha, h]

/-- Witness for c6_sentinel_condition with a negative parameter. -/
theorem c6_sentinel_condition_witness :
    smf_model_function (fun _ => some 1) (fun m => m) (fun _ => 1)
      (fun _ _ => 1) [-1] 1 = some (10 ^ 10) :=
  c6_sentinel_condition (fun _ => some 1) (fun m => m) (fun _ => 1)
    (fun _ _ => 1) [-1] 1 (Or.inl (by norm_num))

/-- Counterexample to claim C6 as stated: the parameter vector (1/2, 0) has
a non-positive component (its second entry is 0), yet the model does not
return the sentinel: it proceeds to the inversion, and two inverters that
differ give different non-sentinel densities. -/
theorem c6_counterexample :
    ((0 : ℚ) ∈ [(1/2 : ℚ), 0] ∧ (0 : ℚ) ≤ 0)
  ∧ smf_model_function (fun _ => some 1) (fun m => m) (fun _ => 1)
      (fun _ _ => 1) [1/2, 0] 1 = some 1
  ∧ smf_model_function (fun _ => some 1) (fun m => m) (fun _ => 1)
      (fun _ _ => 2) [1/2, 0] 1 = some (1/2)
  ∧ (some (1 : ℚ) ≠ some ((10 : ℚ) ^ 10) ∧ some (1/2 : ℚ) ≠ some ((10 : ℚ) ^ 10)) := by
  refine ⟨⟨by norm_num, le_refl 0⟩, ?h1, ?h2, by norm_num, by norm_num⟩
  case h1 => norm_num [smf_model_function, stellar_to_halo_mass]
  case h2 => norm_num [smf_model_function, stellar_to_halo_mass]

/-- Helper: mapM in the Option monad succeeds with the pointwise values
when every element succeeds. -/
theorem mapM_option_eq_map {α β : Type} (l : List α) (f : α → Option β) (g : α → β)
    (h : ∀ a ∈ l, f a = some (g a)) : l.mapM f = some (l.map g) := by
  induction l with
  | nil => rfl
  | cons x xs ih =>
    have hx := h x (by simp)
    have hxs := ih (fun a ha => h a (by simp [ha]))
    rw [List.mapM_cons, hx, hxs]
    rfl

/-- Claim C9 (confirmed): within_bounds returns True exactly when every
value lies strictly between the bound entries at its index; bound entries
beyond the length of `values` are ignored (the take-truncated bounds give
the same answer), and the empty value list yields True. -/
theorem c9_within_bounds_spec (values lower upper : List ℚ)
    (hl : values.length ≤ lower.length) (hu : values.length ≤ upper.length) :
    (within_bounds values lower upper = some true
      ↔ ∀ i, i < values.length →
          lower.getD i 0 < values.getD i 0 ∧ values.getD i 0 < upper.getD i 0)
  ∧ within_bounds values lower upper
      = within_bounds values (lower.take values.length) (upper.take values.length)
  ∧ within_bounds ([] : List ℚ) lower upper = some true := by
  have key : ∀ (lo hi : List ℚ), values.length ≤ lo.length → values.length ≤ hi.length →
      within_bounds values lo hi
        = some (((List.range values.length).map (fun i =>
            decide (lo.getD i 0 < values.getD i 0)
              && decide (values.getD i 0 < hi.getD i 0))).all id) := by
    intro lo hi hlo hhi
    unfold within_bounds
    rw [mapM_option_eq_map _ _ (fun i =>
      decide (lo.getD i 0 < values.getD i 0) && decide (values.getD i 0 < hi.getD i 0))]
    · rfl
    · intro i hi2
      rw [List.mem_range] at hi2
      have e1 : values.getD i 0 = values[i] := List.getD_eq_getElem values 0 hi2
      have e2 : lo.getD i 0 = lo[i] := List.getD_eq_getElem lo 0 (lt_of_lt_of_le hi2 hlo)
      have e3 : hi.getD i 0 = hi[i] := List.getD_eq_getElem hi 0 (lt_of_lt_of_le hi2 hhi)
      rw [e1, e2, e3]
      simp only [List.get?_eq_getElem?, List.getElem?_eq_getElem hi2,
        List.getElem?_eq_getElem (lt_of_lt_of_le hi2 hlo),
        List.getElem?_eq_getElem (lt_of_lt_of_le hi2 hhi), Option.some_bind]
      rfl
  refine ⟨?_, ?_, by rfl⟩
  · rw [key lower upper hl hu]
    simp only [Option.some.injEq]
    constructor
    · intro h i hi
      rw [List.all_eq_true] at h
      have := h _ (List.mem_map.mpr ⟨i, List.mem_range.mpr hi, rfl⟩)
      simpa using this
    · intro h
      rw [List.all_eq_true]
      intro x hx
      obtain ⟨i, hi, rfl⟩ := List.mem_map.mp hx
      rw [List.mem_range] at hi
      obtain ⟨ha, hb⟩ := h i hi
      simp only [id_eq, Bool.and_eq_true, decide_eq_true_eq]
      exact ⟨ha, hb⟩
  · rw [key lower upper hl hu,
      key (lower.take values.length) (upper.take values.length)
        (by simp [List.length_take]; omega) (by simp [List.length_take]; omega)]
    congr 1
    congr 1
    apply List.map_congr_left
    intro i hi
    rw [List.mem_range] at hi
    have e1 : (lower.take values.length).getD i 0 = lower.getD i 0 := by
      rw [List.getD_eq_getElem?_getD, List.getD_eq_getElem?_getD, List.getElem?_take,
        if_pos hi]
    have e2 : (upper.take values.length).getD i 0 = upper.getD i 0 := by
      rw [List.getD_eq_getElem?_getD, List.getD_eq_getElem?_getD, List.getElem?_take,
        if_pos hi]
    rw [e1, e2]

/-- Witness for c9_within_bounds_spec on a one-element value list with
two-element bound lists. -/
theorem c9_within_bounds_spec_witness :
    (within_bounds [(1 : ℚ)] [0, 5] [2, 7] = some true
      ↔ ∀ i, i < [(1 : ℚ)].length →
          [(0 : ℚ), 5].getD i 0 < [(1 : ℚ)].getD i 0
            ∧ [(1 : ℚ)].getD i 0 < [(2 : ℚ), 7].getD i 0)
  ∧ within_bounds [(1 : ℚ)] [0, 5] [2, 7]
      = within_bounds [(1 : ℚ)] ([(0 : ℚ), 5].take [(1 : ℚ)].length)
          ([(2 : ℚ), 7].take [(1 : ℚ)].length)
  ∧ within_bounds ([] : List ℚ) [0, 5] [2, 7] = some true :=
  c9_within_bounds_spec [(1 : ℚ)] [0, 5] [2, 7] (by norm_num) (by norm_num)

/-- Helper: an element-level reading of a successful Option-monad mapM:
the result has the same length and holds the pointwise values. -/
theorem mapM_option_getD {α β : Type} (l : List α) (f : α → Option β)
    (res : List β) (h : l.mapM f = some res) :
    res.length = l.length
      ∧ ∀ i d e, i < l.length → f (l.getD i d) = some (res.getD i e) := by
  induction l generalizing res with
  | nil =>
    have h0 : ([] : List β) = res := Option.some.inj (by rw [← h]; rfl)
    subst h0
    exact ⟨rfl, fun i d e hi => absurd hi (by simp)⟩
  | cons x xs ih =>
    rw [List.mapM_cons] at h
    cases hfx : f x with
    | none => rw [hfx] at h; simp at h
    | some y =>
      rw [hfx] at h
      cases hfxs : xs.mapM f with
      | none =>
        rw [hfxs] at h
        simp at h
      | some ys =>
        rw [hfxs] at h
        have hres : res = y :: ys := by
          simpa using h.symm
        subst hres
        obtain ⟨hlen, helt⟩ := ih ys hfxs
        refine ⟨by simp [hlen], ?_⟩
        intro i d e hi
        cases i with
        | zero => simpa using hfx
        | succ j =>
          have hj : j < xs.length := by simpa using hi
          simpa using helt j d e hj

/-- Claim C10 (confirmed): for each redshift slice i of a successful
fit_SMF_model run, the fitter is called on exactly the surviving rows of
slice i (densities above 1e-6, and below the critical mass when the
feedback model is sn) together with the HMF at index i+1; the surviving
rows are a sublist of the original slice (kept unchanged and in order), and
membership in them is characterised by the two cut conditions. -/
theorem c10_fit_SMF_model_slices
    (fit : List (List ℚ) → List (List ℚ) → SMFModel → ℕ →
      List ℚ × List (List ℚ) × ℚ)
    (smfs hmfs : List (List (List ℚ))) (feedback_name : String) (m_crit : ℚ)
    (res : List (List ℚ) × List (List (List ℚ)) × List ℚ)
    (hres : fit_SMF_model fit smfs hmfs feedback_name m_crit = some res)
    (i : ℕ) (hi : i < smfs.length) :
    (res.1.getD i [], res.2.1.getD i [], res.2.2.getD i 0)
        = fit (surviving_rows (smfs.getD i []) feedback_name m_crit)
            (hmfs.getD (i + 1) [])
            (smf_model_class (hmfs.getD (i + 1) []) feedback_name m_crit) (i + 1)
  ∧ (surviving_rows (smfs.getD i []) feedback_name m_crit).Sublist (smfs.getD i [])
  ∧ ∀ r, r ∈ surviving_rows (smfs.getD i []) feedback_name m_crit
      ↔ r ∈ smfs.getD i [] ∧ r.getD 1 0 > 1 / 1000000
          ∧ (feedback_name = "sn" → r.getD 0 0 < m_crit) := by
  refine ⟨?_, ?_, ?_⟩
  · unfold fit_SMF_model at hres
    obtain ⟨results, hmapm, hres2⟩ := Option.bind_eq_some.mp hres
    have hres3 := Option.some.inj hres2
    obtain ⟨hlen, helt⟩ := mapM_option_getD _ _ _ hmapm
    have hilen : i < (List.range smfs.length).length := by
      simpa [List.length_range] using hi
    have hrlen : i < results.length := by
      rw [hlen, List.length_range]
      exact hi
    have hFi := helt i 0 (([] : List ℚ), ([] : List (List ℚ)), (0 : ℚ)) hilen
    have hidx : (List.range smfs.length).getD i 0 = i := by
      rw [List.getD_eq_getElem _ 0 hilen, List.getElem_range]
    rw [hidx] at hFi
    have hsmf : smfs.get? i = some (smfs.getD i []) := by
      rw [List.getD_eq_getElem smfs [] hi, List.get?_eq_getElem?,
        List.getElem?_eq_getElem hi]
    rw [hsmf] at hFi
    cases hh : hmfs.get? (i + 1) with
    | none =>
      rw [hh] at hFi
      simp at hFi
    | some hmfv =>
      rw [hh] at hFi
      have hv : hmfs.getD (i + 1) [] = hmfv := by
        rw [List.getD_eq_getElem?_getD, ← List.get?_eq_getElem?, hh]
        rfl
      have hFi2 : fit (surviving_rows (smfs.getD i []) feedback_name m_crit) hmfv
          (smf_model_class hmfv feedback_name m_crit) (i + 1)
            = results.getD i (([] : List ℚ), ([] : List (List ℚ)), (0 : ℚ)) := by
        simpa using hFi
      rw [← hres3, hv]
      have hm1 : (List.map (fun t : List ℚ × List (List ℚ) × ℚ => t.1) results).getD i []
          = (results.getD i (([] : List ℚ), ([] : List (List ℚ)), (0 : ℚ))).1 := by
        rw [List.getD_eq_getElem _ [] (by simpa using hrlen), List.getElem_map,
          List.getD_eq_getElem _ _ hrlen]
      have hm2 : (List.map (fun t : List ℚ × List (List ℚ) × ℚ => t.2.1) results).getD i []
          = (results.getD i (([] : List ℚ), ([] : List (List ℚ)), (0 : ℚ))).2.1 := by
        rw [List.getD_eq_getElem _ [] (by simpa using hrlen), List.getElem_map,
          List.getD_eq_getElem _ _ hrlen]
      have hm3 : (List.map (fun t : List ℚ × List (List ℚ) × ℚ => t.2.2) results).getD i 0
          = (results.getD i (([] : List ℚ), ([] : List (List ℚ)), (0 : ℚ))).2.2 := by
        rw [List.getD_eq_getElem _ 0 (by simpa using hrlen), List.getElem_map,
          List.getD_eq_getElem _ _ hrlen]
      rw [hm1, hm2, hm3, ← hFi2]
  · unfold surviving_rows
    by_cases hsn : feedback_name = "sn"
    · simp only [hsn, if_pos rfl]
      exact (List.filter_sublist _).trans (List.filter_sublist _)
    · simp only [if_neg hsn]
      exact List.filter_sublist _
  · intro r
    unfold surviving_rows
    by_cases hsn : feedback_name = "sn"
    · rw [if_pos hsn]
      simp only [List.mem_filter, decide_eq_true_eq, hsn, gt_iff_lt]
      constructor
      · rintro ⟨⟨hmem, hdens⟩, hmass⟩
        exact ⟨hmem, hdens, fun _ => hmass⟩
      · rintro ⟨hmem, hdens, hmass⟩
        exact ⟨⟨hmem, hdens⟩, hmass trivial⟩
    · rw [if_neg hsn]
      simp only [List.mem_filter, decide_eq_true_eq, hsn, gt_iff_lt]
      constructor
      · rintro ⟨hmem, hdens⟩
        exact ⟨hmem, hdens, fun hc => hc.elim⟩
      · rintro ⟨hmem, hdens, _⟩
        exact ⟨hmem, hdens⟩

/-- Witness for c10_fit_SMF_model_slices on a one-slice data set. -/
theorem c10_fit_SMF_model_slices_witness :
    ((([[1]], [[[1, 2]]], [0]) : List (List ℚ) × List (List (List ℚ)) × List ℚ).1.getD 0 [],
      (([[1]], [[[1, 2]]], [0]) : List (List ℚ) × List (List (List ℚ)) × List ℚ).2.1.getD 0 [],
      (([[1]], [[[1, 2]]], [0]) : List (List ℚ) × List (List (List ℚ)) × List ℚ).2.2.getD 0 0)
        = (fun smf _ _ _ => (([1] : List ℚ), smf, (0 : ℚ)))
            (surviving_rows (([[[1, 2], [3, 0]]] : List (List (List ℚ))).getD 0 []) "none" 1)
            (([[[0, 0]], [[1, 5]]] : List (List (List ℚ))).getD (0 + 1) [])
            (smf_model_class
              (([[[0, 0]], [[1, 5]]] : List (List (List ℚ))).getD (0 + 1) []) "none" 1)
            (0 + 1)
  ∧ (surviving_rows (([[[1, 2], [3, 0]]] : List (List (List ℚ))).getD 0 []) "none" 1).Sublist
      (([[[1, 2], [3, 0]]] : List (List (List ℚ))).getD 0 [])
  ∧ ∀ r, r ∈ surviving_rows (([[[1, 2], [3, 0]]] : List (List (List ℚ))).getD 0 []) "none" 1
      ↔ r ∈ ([[[1, 2], [3, 0]]] : List (List (List ℚ))).getD 0 []
          ∧ r.getD 1 0 > 1 / 1000000 ∧ ("none" = "sn" → r.getD 0 0 < (1 : ℚ)) :=
  c10_fit_SMF_model_slices (fun smf _ _ _ => ([1], smf, 0)) [[[1, 2], [3, 0]]]
    [[[0, 0]], [[1, 5]]] "none" 1 ([[1]], [[[1, 2]]], [0])
    (by
      norm_num [fit_SMF_model, surviving_rows, smf_model_class, List.range_succ,
        List.mapM_cons, List.mapM_nil, List.mapM.loop, List.filter_cons]
      decide)
    0 (by norm_num)

/-- Claim C8 (confirmed): whenever the parameter vector fails the bound
check, or passes it but the predicted log-abundances contain a non-finite
entry, the calibration cost function returns the scalar sentinel 1e+30 as a
successful value for EVERY requested output mode and fitting space — in
particular, in residual mode the result is a scalar, not a residual vector,
and no unknown-fitting-space NameError can be raised on such inputs. -/
theorem c8_sentinel_before_dispatch (log_ndf : List NDFRow)
    (lower upper : List (WithTop ℚ)) (cal_ab : List ℚ → List ℚ → List EF)
    (fitting_space : String) (relative_weights : Bool) (tenpow : ℚ → ℚ)
    (params : List ℚ) (out : String) (weighted : Bool) :
    (within_bounds (params.map (fun p => (p : WithTop ℚ))) lower upper = some false →
      cost_function log_ndf lower upper cal_ab fitting_space relative_weights
          tenpow params out weighted
        = Except.ok (CalOut.scalar (.fin (10 ^ 30))))
  ∧ (within_bounds (params.map (fun p => (p : WithTop ℚ))) lower upper = some true →
      (cal_ab (log_ndf.map (fun r => r.quantity)) params).all EF.isFinite = false →
      cost_function log_ndf lower upper cal_ab fitting_space relative_weights
          tenpow params out weighted
        = Except.ok (CalOut.scalar (.fin (10 ^ 30)))) := by
  constructor
  · intro h
    unfold cost_function cost_eval
    rw [h]
    rfl
  · intro h1 h2
    unfold cost_function cost_eval
    rw [h1]
    simp only [h2, Bool.not_false, if_true]
    rfl

/-- Witness for c8_sentinel_before_dispatch: with parameter 2 outside the
bounds (0, 1), residual output mode and a nonsense fitting space, the cost
function still returns the scalar sentinel. -/
theorem c8_sentinel_before_dispatch_witness :
    cost_function [] [0] [1] (fun _ _ => []) "garbage" false (fun q => q)
        [2] "res" true
      = Except.ok (CalOut.scalar (.fin (10 ^ 30))) :=
  (c8_sentinel_before_dispatch [] [0] [1] (fun _ _ => []) "garbage" false
      (fun q => q) [2] "res" true).1
    (by
      simp [within_bounds, List.range_succ, List.mapM_cons, List.mapM_nil,
        List.mapM.loop])

/-- Claim C4 (confirmed): whenever the residual
mode of the calibration cost function returns a residual vector, its scalar cost mode on the same inputs
returns exactly the sum of the squares of the entries of that vector, for any
dataset, weighting configuration and fitting space. -/
theorem c4_cost_is_sum_of_squared_residuals (log_ndf : List NDFRow)
    (lower upper : List (WithTop ℚ)) (cal_ab : List ℚ → List ℚ → List EF)
    (fitting_space : String) (relative_weights : Bool) (tenpow : ℚ → ℚ)
    (params : List ℚ) (weighted : Bool) (v : List EF)
    (hres : cost_function log_ndf lower upper cal_ab fitting_space
        relative_weights tenpow params "res" weighted = Except.ok (CalOut.vec v)) :
    cost_function log_ndf lower upper cal_ab fitting_space relative_weights
        tenpow params "cost" weighted
      = Except.ok (CalOut.scalar (efSum (v.map (fun r => EF.mul r r)))) := by
  unfold cost_function at hres ⊢
  cases hce : cost_eval log_ndf lower upper cal_ab fitting_space
      relative_weights tenpow params weighted with
  | error e =>
    rw [hce] at hres
    exact Except.noConfusion hres
  | ok st =>
    rw [hce] at hres
    cases st with
    | sentinel =>
      have hres2 : Except.ok (CalOut.scalar (EF.fin (10 ^ 30)))
          = Except.ok (CalOut.vec v) := hres
      exact absurd (Except.ok.inj hres2) (fun h => CalOut.noConfusion h)
    | residuals w =>
      have hres2 : Except.ok (CalOut.vec w) = Except.ok (CalOut.vec v) := hres
      have hw : w = v := CalOut.vec.inj (Except.ok.inj hres2)
      subst hw
      rfl

/-- Witness for c4_cost_is_sum_of_squared_residuals on a one-row dataset
with finite error bars and weighting on. -/
theorem c4_cost_is_sum_of_squared_residuals_witness :
    cost_function [⟨1, 0, EF.fin 1, EF.fin 1⟩] [((0 : ℚ) : WithTop ℚ)]
        [((1 : ℚ) : WithTop ℚ)] (fun _ _ => [EF.fin 1])
        "log" false (fun q => if q = 1 then 10 else if q = -1 then 1/10 else 0)
        [1/2] "cost" true
      = Except.ok (CalOut.scalar (efSum ([EF.fin (-(20/99))].map (fun r => EF.mul r r)))) :=
  c4_cost_is_sum_of_squared_residuals [⟨1, 0, EF.fin 1, EF.fin 1⟩]
    [((0 : ℚ) : WithTop ℚ)] [((1 : ℚ) : WithTop ℚ)]
    (fun _ _ => [EF.fin 1]) "log" false
    (fun q => if q = 1 then 10 else if q = -1 then 1/10 else 0) [1/2] true
    [EF.fin (-(20/99))]
    (by
      norm_num [cost_function, cost_eval, within_bounds, calculate_weights,
        linear_uncertainty, nanmaxE, tenpowE, EF.add, EF.sub, EF.neg, EF.mul,
        EF.div, EF.fmax, EF.isFinite, efSum, List.range_succ, List.mapM_cons,
        List.mapM_nil, List.mapM.loop, Except.bind, pure, Except.pure,
        Option.some_bind, List.singleton, WithTop.coe_lt_coe,
        List.zipWith_cons_cons, List.zipWith_nil_right, List.zipWith_nil_left]
      show Except.ok (CalOut.vec (List.zipWith EF.mul [EF.fin (-1)] [EF.fin (20/99)]))
        = Except.ok (CalOut.vec [EF.fin (-(20/99))])
      norm_num [EF.mul])

/-- Claim C2 (corrected): the two cost functions differ.  The cost function of the calibration
module returns the fixed sentinel 1e+30 (at least 1e+29)
when the parameters are out of bounds, without evaluating the abundance
model (the result is the same for any two model-evaluation functions).
The SMF-Analysis cost function instead evaluates the model FIRST — a model
exception escapes before the bound check — and its sentinel is 1e+10,
which is smaller than 1e+29. -/
theorem c2_sentinel_corrected (log_ndf : List NDFRow)
    (lower upper : List (WithTop ℚ))
    (cal_ab1 cal_ab2 : List ℚ → List ℚ → List EF) (fitting_space : String)
    (relative_weights : Bool) (tenpow : ℚ → ℚ) (params : List ℚ)
    (out : String) (weighted : Bool)
    (log10 : ℚ → ℚ) (model_fn : List ℚ → ℚ → Option ℚ) (smf : List (List ℚ)) :
    (within_bounds (params.map (fun p => (p : WithTop ℚ))) lower upper = some false →
      cost_function log_ndf lower upper cal_ab1 fitting_space relative_weights
          tenpow params out weighted
        = Except.ok (CalOut.scalar (.fin (10 ^ 30)))
      ∧ cost_function log_ndf lower upper cal_ab1 fitting_space relative_weights
          tenpow params out weighted
        = cost_function log_ndf lower upper cal_ab2 fitting_space relative_weights
          tenpow params out weighted)
  ∧ ((smf.map (fun r => r.getD 0 0)).mapM (model_fn params) = Option.none →
      smf_cost_function log10 model_fn smf params = Option.none)
  ∧ (∀ phi_mod, (smf.map (fun r => r.getD 0 0)).mapM (model_fn params) = some phi_mod →
      within_bounds (params.map (fun p => (p : WithTop ℚ)))
          [0, 0, 0, 0] [1, ⊤, ⊤, 1] = some false →
      smf_cost_function log10 model_fn smf params = some (NpOut.scalar (10 ^ 10)))
  ∧ ((10 : ℚ) ^ 10 < 10 ^ 29 ∧ (10 : ℚ) ^ 29 ≤ 10 ^ 30) := by
  refine ⟨?_, ?_, ?_, by norm_num, by norm_num⟩
  · intro h
    constructor
    · unfold cost_function cost_eval
      rw [h]
      rfl
    · unfold cost_function cost_eval
      rw [h]
  · intro h
    simp only [smf_cost_function]
    rw [h]
    rfl
  · intro phi_mod h1 h2
    simp only [smf_cost_function]
    rw [h1, h2]
    rfl

/-- Witness for c2_sentinel_corrected: parameter 3 against bounds (0, 1)
makes the calibration cost function return the 1e+30 sentinel. -/
theorem c2_sentinel_corrected_witness :
    cost_function [] [((0 : ℚ) : WithTop ℚ)] [((1 : ℚ) : WithTop ℚ)]
        (fun _ _ => []) "lin" true (fun q => q) [3] "res" false
      = Except.ok (CalOut.scalar (.fin (10 ^ 30))) :=
  ((c2_sentinel_corrected [] [((0 : ℚ) : WithTop ℚ)] [((1 : ℚ) : WithTop ℚ)]
      (fun _ _ => []) (fun _ _ => [EF.nan]) "lin" true (fun q => q) [3] "res"
      false (fun q => q) (fun _ _ => some 1) []).1
    (by
      simp [within_bounds, List.range_succ, List.mapM_cons, List.mapM_nil,
        List.mapM.loop, WithTop.coe_lt_coe])).1

/-- Counterexample to claim C2 as stated, on the SMF-Analysis cost
function with the out-of-bounds parameter vector (2) (A = 2 > 1): first,
with an abundance model that raises (empty interpolation domain) the
exception escapes the cost function — the bound check did not short-circuit
before model evaluation; second, with a working abundance model the
returned sentinel is 1e+10, which is below 1e+29. -/
theorem c2_counterexample :
    smf_cost_function (fun q => q)
        (fun ps m => smf_model_function (fun _ => Option.none) (fun m2 => m2)
          (fun _ => 1) (fun _ _ => 1) ps m)
        [[1, 1]] [2] = Option.none
  ∧ smf_cost_function (fun q => q)
        (fun ps m => smf_model_function (fun _ => some 1) (fun m2 => m2)
          (fun _ => 1) (fun _ _ => 1) ps m)
        [[1, 1]] [2] = some (NpOut.scalar (10 ^ 10))
  ∧ (10 : ℚ) ^ 10 < 10 ^ 29 := by
  refine ⟨?_, ?_, by norm_num⟩
  · norm_num [smf_cost_function, smf_model_function, stellar_to_halo_mass,
      List.mapM_cons, List.mapM_nil, List.mapM.loop]
  · norm_num [smf_cost_function, smf_model_function, stellar_to_halo_mass,
      within_bounds, List.range_succ, List.mapM_cons, List.mapM_nil,
      List.mapM.loop, WithTop.coe_lt_coe, Option.some_bind]

/-- Claim C5 (corrected): with relative weighting off, on a nonempty
dataset all of whose computed linear-space uncertainties are finite, every
weight is exactly 1/uncertainty; and a row whose uncertainty is non-finite
gets the substituted uncertainty np.nanmax(uncertainties) * 10 — the
largest NON-NaN uncertainty times ten, which equals ten times the largest
finite uncertainty only when no uncertainty is infinite. -/
theorem c5_weights_corrected (log_ndf : List NDFRow) (tenpow : ℚ → ℚ) :
    (log_ndf ≠ [] →
      (∀ r ∈ log_ndf, (linear_uncertainty tenpow r).isFinite = true) →
      calculate_weights log_ndf tenpow false
        = Except.ok ((log_ndf.map (linear_uncertainty tenpow)).map
            (fun u => EF.div (.fin 1) u)))
  ∧ (∀ ws mx, calculate_weights log_ndf tenpow false = Except.ok ws →
      nanmaxE (log_ndf.map (linear_uncertainty tenpow)) = some mx →
      ∀ i, i < log_ndf.length →
        (linear_uncertainty tenpow
            (log_ndf.getD i ⟨0, 0, EF.fin 0, EF.fin 0⟩)).isFinite = false →
        ws.getD i (EF.fin 0) = EF.div (.fin 1) (EF.mul mx (.fin 10))) := by
  constructor
  · intro hne hfin
    cases hmx : nanmaxE (log_ndf.map (linear_uncertainty tenpow)) with
    | none =>
      exfalso
      cases log_ndf with
      | nil => exact hne rfl
      | cons x xs => simp [nanmaxE, List.map_cons] at hmx
    | some mx =>
      simp only [calculate_weights]
      rw [hmx]
      have hsub : (log_ndf.map (linear_uncertainty tenpow)).map
          (fun u => if u.isFinite then u else EF.mul mx (.fin 10))
            = (log_ndf.map (linear_uncertainty tenpow)) := by
        conv_rhs => rw [← List.map_id (log_ndf.map (linear_uncertainty tenpow))]
        apply List.map_congr_left
        intro u hu
        obtain ⟨r, hr, rfl⟩ := List.mem_map.mp hu
        rw [if_pos (hfin r hr)]
        rfl
      show Except.ok (((log_ndf.map (linear_uncertainty tenpow)).map
          (fun u => if u.isFinite then u else EF.mul mx (.fin 10))).map
            (fun u => EF.div (.fin 1) u))
        = Except.ok ((log_ndf.map (linear_uncertainty tenpow)).map
            (fun u => EF.div (.fin 1) u))
      rw [hsub]
  · intro ws mx hws hmx i hi hnf
    simp only [calculate_weights] at hws
    rw [hmx] at hws
    have hws2 : (((log_ndf.map (linear_uncertainty tenpow)).map
        (fun u => if u.isFinite then u else EF.mul mx (.fin 10))).map
          (fun u => EF.div (.fin 1) u)) = ws := Except.ok.inj hws
    have hlen1 : i < (log_ndf.map (linear_uncertainty tenpow)).length := by
      simpa [List.length_map] using hi
    have hlen2 : i < ((log_ndf.map (linear_uncertainty tenpow)).map
        (fun u => if u.isFinite then u else EF.mul mx (.fin 10))).length := by
      simpa [List.length_map] using hi
    have hlen3 : i < (((log_ndf.map (linear_uncertainty tenpow)).map
        (fun u => if u.isFinite then u else EF.mul mx (.fin 10))).map
          (fun u => EF.div (.fin 1) u)).length := by
      simpa [List.length_map] using hi
    rw [← hws2, List.getD_eq_getElem _ _ hlen3, List.getElem_map, List.getElem_map,
      List.getElem_map]
    have hrow : (log_ndf.getD i ⟨0, 0, EF.fin 0, EF.fin 0⟩) = log_ndf[i] :=
      List.getD_eq_getElem log_ndf ⟨0, 0, EF.fin 0, EF.fin 0⟩ hi
    rw [hrow] at hnf
    rw [if_neg (by rw [hnf]; exact Bool.false_ne_true)]

/-- Witness for c5_weights_corrected on a one-row dataset with finite
error bars. -/
theorem c5_weights_corrected_witness :
    calculate_weights [⟨1, 0, EF.fin 1, EF.fin 1⟩]
        (fun q => if q = 1 then 10 else if q = -1 then 1/10 else 0) false
      = Except.ok (([(⟨1, 0, EF.fin 1, EF.fin 1⟩ : NDFRow)].map
          (linear_uncertainty (fun q => if q = 1 then 10 else if q = -1 then 1/10 else 0))).map
            (fun u => EF.div (.fin 1) u)) :=
  (c5_weights_corrected [⟨1, 0, EF.fin 1, EF.fin 1⟩]
      (fun q => if q = 1 then 10 else if q = -1 then 1/10 else 0)).1
    (by simp)
    (by
      intro r hr
      rw [List.mem_singleton] at hr
      subst hr
      norm_num [linear_uncertainty, tenpowE, EF.add, EF.sub, EF.neg, EF.div,
        EF.isFinite])

/-- Counterexample to claim C5 as stated: a two-row dataset whose second
row has an infinite upper error bar.  Its linear-space uncertainty is
+inf (non-finite), the only finite uncertainty is 99/20, so the claim
demands the substituted value 10 * 99/20 and hence the weight 2/99 — but
np.nanmax of the original uncertainties is +inf, the substituted value is
+inf, and the computed weight of that row is 0. -/
theorem c5_counterexample :
    calculate_weights [⟨1, 0, EF.fin 1, EF.fin 1⟩, ⟨2, 0, EF.fin 1, EF.pinf⟩]
        (fun q => if q = 1 then 10 else if q = -1 then 1/10 else 0) false
      = Except.ok [EF.fin (20/99), EF.fin 0]
  ∧ linear_uncertainty (fun q => if q = 1 then 10 else if q = -1 then 1/10 else 0)
      ⟨1, 0, EF.fin 1, EF.fin 1⟩ = EF.fin (99/20)
  ∧ EF.fin 0 ≠ EF.div (EF.fin 1) (EF.mul (EF.fin (99/20)) (EF.fin 10)) := by
  refine ⟨?_, ?_, ?_⟩
  · norm_num [calculate_weights, linear_uncertainty, nanmaxE, tenpowE, EF.add,
      EF.sub, EF.neg, EF.mul, EF.div, EF.fmax, EF.isFinite]
  · norm_num [linear_uncertainty, tenpowE, EF.add, EF.sub, EF.neg, EF.div]
  · norm_num [EF.div, EF.mul]

/-- Claim C7 (code bug at the brute backend): the three record-returning
backends return the best point with a null distribution (emitting a warning
when the optimizer reports non-convergence), and an unknown method raises
NameError — but the brute branch crashes with AttributeError, because
scipy.optimize.brute returns a bare parameter array that has no .x
attribute, instead of returning that best point. -/
theorem c7_lsq_fit_backends :
    lsq_fit ⟨[1/2], true⟩ ⟨[1/3], true⟩ ⟨[1/4], false⟩ [1/5] "brute"
      = Except.error "AttributeError: ndarray object has no attribute x"
  ∧ lsq_fit ⟨[1/2], true⟩ ⟨[1/3], true⟩ ⟨[1/4], false⟩ [1/5] "least_squares"
      = Except.ok (([1/2], Option.none), [])
  ∧ lsq_fit ⟨[1/2], true⟩ ⟨[1/3], true⟩ ⟨[1/4], false⟩ [1/5] "minimize"
      = Except.ok (([1/3], Option.none), [])
  ∧ lsq_fit ⟨[1/2], true⟩ ⟨[1/3], true⟩ ⟨[1/4], false⟩ [1/5] "annealing"
      = Except.ok (([1/4], Option.none), ["Warning: Optimization did not succeed"])
  ∧ lsq_fit ⟨[1/2], true⟩ ⟨[1/3], true⟩ ⟨[1/4], false⟩ [1/5] "mcmc"
      = Except.error "NameError: method not known." :=
  ⟨rfl, rfl, rfl, rfl, rfl⟩

/-- Claim C3 (confirmed): for each of the three feedback variants with
parameters strictly inside the bounds of the variant and halo mass in the valid
domain (m > 0), a numerical inverse satisfying the inverter contract
(the forward function maps the returned value back to the target, and the
returned value lies in the domain) recovers the halo mass exactly:
invert(forward(m, params), params) = m.  For the none and supernova
variants the needed injectivity of the forward function is proved from the
bounds (with the abstract real power pw assumed strictly monotone and
positive on positives, as x ↦ x^alpha is); for the supernova+black-hole
variant the strict monotonicity of the hypergeometric closed form on
m > 0 is a hypothesis. -/
theorem c3_invert_forward_round_trip
    (ifc₁ ifc₂ ifc₃ : (ℚ → ℚ) → ℚ → ℚ)
    (A₁ m₁ : ℚ) (hA₁ : 0 < A₁) (hA₁u : A₁ < 1)
    (hc₁ : no_feedback_function A₁
        (stellar_to_halo_mass ifc₁ (no_feedback_function A₁)
          (no_feedback_function A₁ m₁))
      = no_feedback_function A₁ m₁)
    (m_c A₂ alpha₂ m₂ : ℚ) (pw : ℚ → ℚ)
    (hmc : 0 < m_c) (hA₂ : 0 < A₂) (hA₂u : A₂ < 1) (halpha : 0 < alpha₂)
    (hm₂ : 0 < m₂)
    (hpw_mono : ∀ x y : ℚ, 0 < x → x < y → pw x < pw y)
    (hpw_pos : ∀ x : ℚ, 0 < x → 0 < pw x)
    (hc₂ : supernova_feedback_function m_c A₂ alpha₂ pw
        (stellar_to_halo_mass ifc₂ (supernova_feedback_function m_c A₂ alpha₂ pw)
          (supernova_feedback_function m_c A₂ alpha₂ pw m₂))
      = supernova_feedback_function m_c A₂ alpha₂ pw m₂)
    (hpos₂ : 0 < stellar_to_halo_mass ifc₂
        (supernova_feedback_function m_c A₂ alpha₂ pw)
        (supernova_feedback_function m_c A₂ alpha₂ pw m₂))
    (m_c₃ A₃ alpha₃ m₃ : ℚ) (pwa pws hyp2f1s : ℚ → ℚ) (hm₃ : 0 < m₃)
    (hmono₃ : StrictMonoOn
        (supernova_blackhole_feedvack_function m_c₃ A₃ alpha₃ pwa pws hyp2f1s)
        (Set.Ioi 0))
    (hc₃ : supernova_blackhole_feedvack_function m_c₃ A₃ alpha₃ pwa pws hyp2f1s
        (stellar_to_halo_mass ifc₃
          (supernova_blackhole_feedvack_function m_c₃ A₃ alpha₃ pwa pws hyp2f1s)
          (supernova_blackhole_feedvack_function m_c₃ A₃ alpha₃ pwa pws hyp2f1s m₃))
      = supernova_blackhole_feedvack_function m_c₃ A₃ alpha₃ pwa pws hyp2f1s m₃)
    (hpos₃ : 0 < stellar_to_halo_mass ifc₃
        (supernova_blackhole_feedvack_function m_c₃ A₃ alpha₃ pwa pws hyp2f1s)
        (supernova_blackhole_feedvack_function m_c₃ A₃ alpha₃ pwa pws hyp2f1s m₃)) :
    stellar_to_halo_mass ifc₁ (no_feedback_function A₁)
        (no_feedback_function A₁ m₁) = m₁
  ∧ stellar_to_halo_mass ifc₂ (supernova_feedback_function m_c A₂ alpha₂ pw)
        (supernova_feedback_function m_c A₂ alpha₂ pw m₂) = m₂
  ∧ stellar_to_halo_mass ifc₃
        (supernova_blackhole_feedvack_function m_c₃ A₃ alpha₃ pwa pws hyp2f1s)
        (supernova_blackhole_feedvack_function m_c₃ A₃ alpha₃ pwa pws hyp2f1s m₃)
      = m₃ := by
  refine ⟨?_, ?_, ?_⟩
  · unfold no_feedback_function at hc₁
    exact mul_left_cancel₀ (ne_of_gt hA₁) hc₁
  · have hmono : StrictMonoOn (supernova_feedback_function m_c A₂ alpha₂ pw)
        (Set.Ioi 0) := by
      intro x hx y hy hxy
      have hx0 : (0 : ℚ) < x := Set.mem_Ioi.mp hx
      have hy0 : (0 : ℚ) < y := Set.mem_Ioi.mp hy
      have hcpos : 0 < A₂ / (alpha₂ + 1) := div_pos hA₂ (by linarith)
      have hxc : 0 < x / m_c := div_pos hx0 hmc
      have hyc : 0 < y / m_c := div_pos hy0 hmc
      have hxyc : x / m_c < y / m_c := by gcongr
      have h1 : pw (x / m_c) < pw (y / m_c) := hpw_mono _ _ hxc hxyc
      have h2 : 0 < pw (x / m_c) := hpw_pos _ hxc
      have h3 : 0 < pw (y / m_c) := hpw_pos _ hyc
      have hkey : pw (x / m_c) * x < pw (y / m_c) * y :=
        lt_trans (mul_lt_mul_of_pos_right h1 hx0) (mul_lt_mul_of_pos_left hxy h3)
      unfold supernova_feedback_function
      rw [mul_assoc, mul_assoc]
      exact mul_lt_mul_of_pos_left hkey hcpos
    exact hmono.injOn (Set.mem_Ioi.mpr hpos₂) (Set.mem_Ioi.mpr hm₂) hc₂
  · exact hmono₃.injOn (Set.mem_Ioi.mpr hpos₃) (Set.mem_Ioi.mpr hm₃) hc₃

/-- Witness for c3_invert_forward_round_trip: concrete inverters and
parameters for all three variants (A = 1/2 everywhere; supernova with
m_c = 1, alpha = 2, power x^2; black-hole form with alpha = 1 and a
constant hypergeometric stand-in, giving the map m ↦ m²/4 on m > 0). -/
theorem c3_invert_forward_round_trip_witness :
    stellar_to_halo_mass (fun _ y => 2 * y) (no_feedback_function (1/2))
        (no_feedback_function (1/2) 3) = 3
  ∧ stellar_to_halo_mass (fun _ _ => 2)
        (supernova_feedback_function 1 (1/2) 2 (fun x => x ^ 2))
        (supernova_feedback_function 1 (1/2) 2 (fun x => x ^ 2) 2) = 2
  ∧ stellar_to_halo_mass (fun _ _ => 3)
        (supernova_blackhole_feedvack_function 1 (1/2) 1 (fun x => x) (fun x => x)
          (fun _ => 1))
        (supernova_blackhole_feedvack_function 1 (1/2) 1 (fun x => x) (fun x => x)
          (fun _ => 1) 3) = 3 :=
  c3_invert_forward_round_trip (fun _ y => 2 * y) (fun _ _ => 2) (fun _ _ => 3)
    (1/2) 3 (by norm_num) (by norm_num)
    (by norm_num [no_feedback_function, stellar_to_halo_mass])
    1 (1/2) 2 2 (fun x => x ^ 2) (by norm_num) (by norm_num) (by norm_num)
    (by norm_num) (by norm_num)
    (fun x y hx hxy => by simp only []; nlinarith)
    (fun x hx => by positivity)
    (by norm_num [supernova_feedback_function, stellar_to_halo_mass])
    (by norm_num [stellar_to_halo_mass])
    1 (1/2) 1 3 (fun x => x) (fun x => x) (fun _ => 1) (by norm_num)
    (by
      intro a ha b hb hab
      have ha0 : (0 : ℚ) < a := Set.mem_Ioi.mp ha
      unfold supernova_blackhole_feedvack_function
      norm_num
      nlinarith)
    (by norm_num [supernova_blackhole_feedvack_function, stellar_to_halo_mass])
    (by norm_num [stellar_to_halo_mass])
